import Mathlib

/-
  Verification of the candidate-sourcing engine of the `gaither` repository.

  Shallow embedding of:
    - backend/services/github_service.py : rate-limit pre-check, TTL caches,
      the cached read endpoints and the uncached ones;
    - backend/agents/hunter.py : quality scoring, hard filters, recent-activity
      check, per-strategy search execution, batched parallel execution,
      deduplication, sorting and truncation;
    - backend/agents/analyzer.py and the queue protocol between stages.

  Conventions of the embedding:
    - Python `str` operations that the code relies on (`lower`, `strip`,
      substring membership, `startswith`) are re-implemented structurally on
      `List Char` so that all definitions evaluate inside the kernel.
    - Timestamps are integers (epoch seconds for the service; days for the
      recent-activity check, whose only arithmetic is "now - 180 days").
    - Network traffic is abstracted by oracles: a `GithubEnv` for the hunter
      (what each service call would return) and explicit `HttpOutcome`
      arguments for the service-level functions.
    - Python floats appear only in `0.3 <= followers / following <= 10`;
      it is rendered in exact integer arithmetic
      (`3 * following ≤ 10 * followers ∧ followers ≤ 10 * following`),
      which agrees with the float computation on all inputs relevant here.
-/

/- ---------------------------------------------------------------- -/
/- Python string primitives, structural on `List Char`.              -/
/- ---------------------------------------------------------------- -/

/-- Does the second list start with the first list? -/
def listStarts : List Char → List Char → Bool
  | [], _ => true
  | _ :: _, [] => false
  | p :: ps, c :: cs => p == c && listStarts ps cs

/-- Does `pat` occur as a contiguous sublist? Models Python `pat in s`. -/
def chContains (pat : List Char) : List Char → Bool
  | [] => listStarts pat []
  | c :: rest => listStarts pat (c :: rest) || chContains pat rest

/-- Python `s.lower()` (ASCII, which is all the code compares against). -/
def pyLower (s : String) : String := ⟨s.data.map Char.toLower⟩

/-- White space characters recognised by Python `str.strip()`. -/
def isPyWS (c : Char) : Bool := c == ' ' || c == '\t' || c == '\n' || c == '\r'

/-- Python `s.strip()`. -/
def pyStrip (s : String) : String :=
  ⟨((s.data.dropWhile isPyWS).reverse.dropWhile isPyWS).reverse⟩

/-- Python `pat in s` on strings. -/
def strIn (pat s : String) : Bool := chContains pat.data s.data

/-- Python `s.startswith(pat)`. -/
def strStarts (s pat : String) : Bool := listStarts pat.data s.data

/-- Python truthiness of an optional string (`None` and `""` are falsy). -/
def pyTruthy : Option String → Bool
  | none => false
  | some s => s != ""

/- ---------------------------------------------------------------- -/
/- Data model (hunter.py dataclasses and the dict shapes it builds). -/
/- ---------------------------------------------------------------- -/

/-- A GitHub user profile as returned by `GET /users/{username}`, restricted
to the fields read by `hunter.py`.  `hireable` is `None`/`True`/`False` in
the API, hence `Option Bool`. -/
structure UserProfile where
  login : String
  userType : String
  bio : Option String
  name : Option String
  location : Option String
  email : Option String
  hireable : Option Bool
  company : Option String
  public_repos : Nat
  followers : Nat
  following : Nat
  html_url : String
  avatar_url : Option String
  created_at : Option String
deriving DecidableEq

/-- A repository as used by `_check_recent_activity`: only `pushed_at`
matters.  The timestamp is pre-parsed to an integer day number; a repository
whose `pushed_at` is absent is `none` (a malformed date string raises in
`strptime` and is covered by the error case of the whole check). -/
structure Repo where
  pushed_at : Option Int
deriving DecidableEq

/-- A repository search item as used by `_execute_repo_contributor_search`:
`repo.get("owner", {}).get("login")` and `repo.get("name")`. -/
structure RepoItem where
  ownerLogin : Option String
  name : Option String
deriving DecidableEq

/-- The candidate dict built by `HunterAgent._build_candidate_profile`. -/
structure CandidateProfile where
  username : String
  profile_url : String
  avatar_url : Option String
  bio : Option String
  name : Option String
  location : Option String
  email : Option String
  hireable : Option Bool
  company : Option String
  public_repos : Nat
  followers : Nat
  following : Nat
  quality_score : Nat
  created_at : Option String
deriving DecidableEq

/-- The `SearchStrategy` dataclass of `hunter.py`. -/
structure SearchStrategy where
  name : String
  description : String
  query : String
  page : Nat := 1
  per_page : Nat := 10
deriving DecidableEq

/-- The `SearchResult` dataclass of `hunter.py`. -/
structure SearchResult where
  strategy_name : String
  candidates : List CandidateProfile
  success : Bool
  error : Option String := none
deriving DecidableEq

/-- Exceptions relevant to the engine: `RateLimitError(reset_time)` versus
any other `Exception` (summarised by its message). -/
inductive PyExc where
  | rateLimit (resetTime : Int)
  | other (msg : String)
deriving DecidableEq

/-- Python `str(e)` as used when a strategy failure is recorded. -/
def excMessage : PyExc → String
  | .rateLimit _ => "Rate limit exceeded"
  | .other m => m

deriving instance DecidableEq for Except

/- ---------------------------------------------------------------- -/
/- github_service.py : rate-limit pre-check.                         -/
/- ---------------------------------------------------------------- -/

/-- Outcome of `GitHubService._check_rate_limit`: dispatch immediately,
sleep `wait` seconds and then dispatch, or raise `RateLimitError(reset)`. -/
inductive RateCheckOutcome where
  | proceed
  | sleepThenProceed (wait : Int)
  | raiseRateLimit (resetTime : Int)
deriving DecidableEq

/-- Embedding of `GitHubService._check_rate_limit` (github_service.py
lines 106-121) for one bucket, with `remaining`/`reset` the bucket state and
`now` the value of `int(time.time())`. -/
def checkRateLimit (remaining reset now : Int) : RateCheckOutcome :=
  if remaining ≤ 1 then
    if reset > now then
      let wait := reset - now + 1
      if wait > 60 then .raiseRateLimit reset
      else .sleepThenProceed wait
    else .proceed
  else .proceed

/- ---------------------------------------------------------------- -/
/- github_service.py : SearchCache and the cached/uncached reads.    -/
/- ---------------------------------------------------------------- -/

/-- Embedding of `SearchCache.get`: a hit strictly inside the TTL returns the
value; an expired entry is deleted on read; otherwise `none`.  The cache dict
is modelled as an association list. -/
def cacheGet {α : Type} (ttl : Int) (entries : List (String × α × Int))
    (key : String) (now : Int) : Option α × List (String × α × Int) :=
  match entries.find? (fun e => e.1 == key) with
  | some (_, v, ts) =>
      if now - ts < ttl then (some v, entries)
      else (none, entries.filter (fun e => e.1 != key))
  | none => (none, entries)

/-- Embedding of `SearchCache.set`: store `(value, now)` under `key`. -/
def cacheSet {α : Type} (entries : List (String × α × Int)) (key : String)
    (v : α) (now : Int) : List (String × α × Int) :=
  (key, v, now) :: entries.filter (fun e => e.1 != key)

/-- The mutable state of the `GitHubService` singleton: two rate-limit
buckets and three TTL caches.  The Python `_search_cache` and `_repo_cache`
are single heterogeneous dicts; their key prefixes never collide
(`search_users:` vs `search_repos:` in `_search_cache`; `repos:` vs
`repo:` in `_repo_cache`), so each prefix class is modelled as its own
typed component sharing the class TTL. -/
structure GitHubState where
  rate_limit_remaining : Int
  rate_limit_reset : Int
  search_rate_limit_remaining : Int
  search_rate_limit_reset : Int
  user_cache : List (String × UserProfile × Int)
  search_cache : List (String × List String × Int)
  repo_cache : List (String × List Repo × Int)
  repo_search_cache : List (String × List RepoItem × Int)
  repo_detail_cache : List (String × Repo × Int)
deriving DecidableEq

/-- What one dispatched HTTP request would come back as: a 200 body plus the
`X-RateLimit-Remaining`/`X-RateLimit-Reset` headers, a 404 (with headers),
or retry-exhausted failure (`_request_with_retry` returns `None`). -/
inductive HttpOutcome (α : Type) where
  | ok (body : α) (hdrRemaining hdrReset : Int)
  | notFound (hdrRemaining hdrReset : Int)
  | failed
deriving DecidableEq

/-- TTL of `self._user_cache` (600 s). -/
def USER_CACHE_TTL : Int := 600

/-- TTL of `self._search_cache` (300 s). -/
def SEARCH_CACHE_TTL : Int := 300

/-- TTL of `self._repo_cache` (300 s). -/
def REPO_CACHE_TTL : Int := 300

/-- Embedding of `GitHubService.get_user`.  Returns the value, the new state
and whether a network dispatch (`_request_with_retry`, which includes the
rate-limit pre-check and header bookkeeping) happened.  A cache hit returns
before any of that.  `net` is the oracle for what the dispatch would return. -/
def getUser (st : GitHubState) (username : String) (now : Int)
    (net : HttpOutcome UserProfile) :
    Option UserProfile × GitHubState × Bool :=
  let key := "user:" ++ username
  match cacheGet USER_CACHE_TTL st.user_cache key now with
  | (some cached, c) => (some cached, { st with user_cache := c }, false)
  | (none, c) =>
      let st1 := { st with user_cache := c }
      match net with
      | .ok u hr hres =>
          (some u, { st1 with
              rate_limit_remaining := hr
              rate_limit_reset := hres
              user_cache := cacheSet st1.user_cache key u now }, true)
      | .notFound hr hres =>
          (none, { st1 with
              rate_limit_remaining := hr
              rate_limit_reset := hres }, true)
      | .failed => (none, st1, true)

/-- Embedding of `GitHubService.search_users` (search bucket, search cache;
only the logins of the returned items are consumed downstream). -/
def searchUsers (st : GitHubState) (query : String) (per_page page : Nat)
    (now : Int) (net : HttpOutcome (List String)) :
    List String × GitHubState × Bool :=
  let key := "search_users:" ++ query ++ ":" ++ toString per_page ++ ":" ++ toString page
  match cacheGet SEARCH_CACHE_TTL st.search_cache key now with
  | (some cached, c) => (cached, { st with search_cache := c }, false)
  | (none, c) =>
      let st1 := { st with search_cache := c }
      match net with
      | .ok users hr hres =>
          (users, { st1 with
              search_rate_limit_remaining := hr
              search_rate_limit_reset := hres
              search_cache := cacheSet st1.search_cache key users now }, true)
      | .notFound hr hres =>
          ([], { st1 with
              search_rate_limit_remaining := hr
              search_rate_limit_reset := hres }, true)
      | .failed => ([], st1, true)

/-- Embedding of `GitHubService.get_user_repos` (core bucket, repo cache). -/
def getUserRepos (st : GitHubState) (username sort : String) (per_page : Nat)
    (now : Int) (net : HttpOutcome (List Repo)) :
    List Repo × GitHubState × Bool :=
  let key := "repos:" ++ username ++ ":" ++ sort ++ ":" ++ toString per_page
  match cacheGet REPO_CACHE_TTL st.repo_cache key now with
  | (some cached, c) => (cached, { st with repo_cache := c }, false)
  | (none, c) =>
      let st1 := { st with repo_cache := c }
      match net with
      | .ok repos hr hres =>
          (repos, { st1 with
              rate_limit_remaining := hr
              rate_limit_reset := hres
              repo_cache := cacheSet st1.repo_cache key repos now }, true)
      | .notFound hr hres =>
          ([], { st1 with
              rate_limit_remaining := hr
              rate_limit_reset := hres }, true)
      | .failed => ([], st1, true)

/-- Embedding of `GitHubService.get_repo_contributors` (github_service.py
lines 336-353): it consults NO cache — every call goes straight to
`_request_with_retry`.  Only the contributor logins are consumed. -/
def getRepoContributors (st : GitHubState) (owner repo : String)
    (per_page : Nat) (now : Int) (net : HttpOutcome (List String)) :
    List String × GitHubState × Bool :=
  match net with
  | .ok logins hr hres =>
      (logins, { st with
          rate_limit_remaining := hr
          rate_limit_reset := hres }, true)
  | .notFound hr hres =>
      ([], { st with
          rate_limit_remaining := hr
          rate_limit_reset := hres }, true)
  | .failed => ([], st, true)

/-- Embedding of `GitHubService.search_repositories` (github_service.py
lines 411-450): search bucket, `search_repos:` keys of the search cache
(TTL 300 s); a 200 caches and returns the items (only owner login and name
are consumed downstream), anything else returns `[]`. -/
def searchRepositories (st : GitHubState) (query sort : String)
    (per_page page : Nat) (now : Int) (net : HttpOutcome (List RepoItem)) :
    List RepoItem × GitHubState × Bool :=
  let key := "search_repos:" ++ query ++ ":" ++ sort ++ ":"
    ++ toString per_page ++ ":" ++ toString page
  match cacheGet SEARCH_CACHE_TTL st.repo_search_cache key now with
  | (some cached, c) => (cached, { st with repo_search_cache := c }, false)
  | (none, c) =>
      let st1 := { st with repo_search_cache := c }
      match net with
      | .ok repos hr hres =>
          (repos, { st1 with
              search_rate_limit_remaining := hr
              search_rate_limit_reset := hres
              repo_search_cache := cacheSet st1.repo_search_cache key repos now }, true)
      | .notFound hr hres =>
          ([], { st1 with
              search_rate_limit_remaining := hr
              search_rate_limit_reset := hres }, true)
      | .failed => ([], st1, true)

/-- Embedding of `GitHubService.get_repo` (github_service.py lines 268-295):
core bucket, `repo:` keys of the repo cache (TTL 300 s); a 200 caches and
returns the repo, a 404 returns `None`, retry exhaustion returns `None`. -/
def getRepo (st : GitHubState) (username repo_name : String) (now : Int)
    (net : HttpOutcome Repo) : Option Repo × GitHubState × Bool :=
  let key := "repo:" ++ username ++ "/" ++ repo_name
  match cacheGet REPO_CACHE_TTL st.repo_detail_cache key now with
  | (some cached, c) => (some cached, { st with repo_detail_cache := c }, false)
  | (none, c) =>
      let st1 := { st with repo_detail_cache := c }
      match net with
      | .ok repo hr hres =>
          (some repo, { st1 with
              rate_limit_remaining := hr
              rate_limit_reset := hres
              repo_detail_cache := cacheSet st1.repo_detail_cache key repo now }, true)
      | .notFound hr hres =>
          (none, { st1 with
              rate_limit_remaining := hr
              rate_limit_reset := hres }, true)
      | .failed => (none, st1, true)

/-- Embedding of `GitHubService.get_repo_commits` (github_service.py lines
297-317): it consults NO cache — every call goes straight to
`_request_with_retry`; a 200 returns the commit list (modelled by the
commit identifiers), anything else returns `[]`. -/
def getRepoCommits (st : GitHubState) (username repo_name : String)
    (per_page : Nat) (now : Int) (net : HttpOutcome (List String)) :
    List String × GitHubState × Bool :=
  match net with
  | .ok commits hr hres =>
      (commits, { st with
          rate_limit_remaining := hr
          rate_limit_reset := hres }, true)
  | .notFound hr hres =>
      ([], { st with
          rate_limit_remaining := hr
          rate_limit_reset := hres }, true)
  | .failed => ([], st, true)

/-- Embedding of `GitHubService.get_repo_languages` (github_service.py
lines 319-334): it consults NO cache — every call goes straight to
`_request_with_retry`; a 200 returns the language→bytes mapping, anything
else returns the empty dict. -/
def getRepoLanguages (st : GitHubState) (username repo_name : String)
    (now : Int) (net : HttpOutcome (List (String × Nat))) :
    List (String × Nat) × GitHubState × Bool :=
  match net with
  | .ok langs hr hres =>
      (langs, { st with
          rate_limit_remaining := hr
          rate_limit_reset := hres }, true)
  | .notFound hr hres =>
      ([], { st with
          rate_limit_remaining := hr
          rate_limit_reset := hres }, true)
  | .failed => ([], st, true)

/-- What one raw `self.client.get(url)` of `get_repo_readme` came back as:
a 200 with the text, a 404, some other status, or a raised exception (the
surrounding `try` then returns `""`). -/
inductive RawResponse where
  | ok (text : String)
  | notFound
  | otherStatus
  | raised
deriving DecidableEq

/-- The filename loop of `GitHubService.get_repo_readme` (github_service.py
lines 355-377): for each candidate filename fetch the `master` URL, on a
404 retry the `main` URL, return the text of the first 200; an exception
aborts the loop and the handler returns `""`.  Besides the text, the number
of raw requests performed is returned. -/
def getRepoReadmeLoop (fetch : String → RawResponse)
    (username repo_name : String) : List String → String × Nat
  | [] => ("", 0)
  | filename :: rest =>
      let url := "https://raw.githubusercontent.com/" ++ username ++ "/"
        ++ repo_name ++ "/master/" ++ filename
      match fetch url with
      | .raised => ("", 1)
      | .ok text => (text, 1)
      | .notFound =>
          let url2 := "https://raw.githubusercontent.com/" ++ username ++ "/"
            ++ repo_name ++ "/main/" ++ filename
          match fetch url2 with
          | .raised => ("", 2)
          | .ok text => (text, 2)
          | _ =>
              let r := getRepoReadmeLoop fetch username repo_name rest
              (r.1, r.2 + 2)
      | .otherStatus =>
          let r := getRepoReadmeLoop fetch username repo_name rest
          (r.1, r.2 + 1)

/-- Embedding of `GitHubService.get_repo_readme`: it consults NO cache and
touches no rate-limit state (the raw URLs bypass `_request_with_retry`
entirely); every call performs at least one raw request. -/
def getRepoReadme (st : GitHubState) (username repo_name : String)
    (fetch : String → RawResponse) : String × GitHubState × Nat :=
  let r := getRepoReadmeLoop fetch username repo_name
    ["README.md", "README.rst", "README.txt", "README"]
  (r.1, st, r.2)

/- ---------------------------------------------------------------- -/
/- hunter.py : quality scoring.                                      -/
/- ---------------------------------------------------------------- -/

/-- Embedding of `HunterAgent._calculate_quality_score` (hunter.py lines
740-785), written as the same sequential accumulation as the source.  The
float comparison `0.3 <= followers / following <= 10` is rendered exactly
over the integers. -/
def calculateQualityScore (p : UserProfile) : Nat :=
  let score := 0
  let repos := p.public_repos
  let score := score +
    (if repos ≥ 20 then 3 else if repos ≥ 10 then 2 else if repos ≥ 5 then 1 else 0)
  let bio := p.bio.getD ""
  let bio_length := (pyStrip bio).data.length
  let score := score + (if bio_length ≥ 50 then 2 else if bio_length ≥ 20 then 1 else 0)
  let score := score + (if pyTruthy p.name then 1 else 0)
  let score := score +
    (if pyTruthy p.location || pyTruthy p.email || pyTruthy p.company then 1 else 0)
  let followers := p.followers
  let score := score + (if followers ≥ 100 then 2 else if followers ≥ 25 then 1 else 0)
  let score := score + (if p.hireable == some true then 1 else 0)
  let following := p.following
  let score := score +
    (if followers > 0 ∧ following > 0 then
      (if 3 * following ≤ 10 * followers ∧ followers ≤ 10 * following then 1 else 0)
     else 0)
  min score 10

/- Second rendering of the scoring rule, written clause by clause from the
spec's words ("+3/+2/+1 for ≥20/≥10/≥5 public repos; +2/+1 for bio length
≥50/≥20 characters; +1 if display name present; +1 if location or email or
company present; +2/+1 for ≥100/≥25 followers; +1 if explicitly marked
hireable; +1 bonus if follower/following ratio lies in [0.3, 10] (both
counts > 0); final score capped at 10"), to be compared with the rendering
of the source. -/

/-- Spec clause: +3/+2/+1 for ≥20/≥10/≥5 public repos. -/
def specRepoPoints (p : UserProfile) : Nat :=
  if p.public_repos ≥ 20 then 3 else if p.public_repos ≥ 10 then 2
  else if p.public_repos ≥ 5 then 1 else 0

/-- Spec clause: +2/+1 for bio length ≥50/≥20 characters. -/
def specBioPoints (p : UserProfile) : Nat :=
  if (pyStrip (p.bio.getD "")).data.length ≥ 50 then 2
  else if (pyStrip (p.bio.getD "")).data.length ≥ 20 then 1 else 0

/-- Spec clause: +1 if display name present. -/
def specNamePoints (p : UserProfile) : Nat := if pyTruthy p.name then 1 else 0

/-- Spec clause: +1 if location or email or company present. -/
def specContactPoints (p : UserProfile) : Nat :=
  if pyTruthy p.location || pyTruthy p.email || pyTruthy p.company then 1 else 0

/-- Spec clause: +2/+1 for ≥100/≥25 followers. -/
def specFollowerPoints (p : UserProfile) : Nat :=
  if p.followers ≥ 100 then 2 else if p.followers ≥ 25 then 1 else 0

/-- Spec clause: +1 if explicitly marked hireable. -/
def specHireablePoints (p : UserProfile) : Nat :=
  if p.hireable == some true then 1 else 0

/-- Spec clause: +1 bonus if the follower/following ratio lies in
[0.3, 10], both counts positive. -/
def specRatioPoints (p : UserProfile) : Nat :=
  if p.followers > 0 ∧ p.following > 0 then
    (if 3 * p.following ≤ 10 * p.followers ∧ p.followers ≤ 10 * p.following
     then 1 else 0)
  else 0

/-- The documented point schedule, capped at 10. -/
def specQualityScore (p : UserProfile) : Nat :=
  min (specRepoPoints p + specBioPoints p + specNamePoints p + specContactPoints p
       + specFollowerPoints p + specHireablePoints p + specRatioPoints p) 10

/- ---------------------------------------------------------------- -/
/- hunter.py : recent-activity check and filter chain.               -/
/- ---------------------------------------------------------------- -/

/-- Embedding of `HunterAgent._check_recent_activity` (hunter.py lines
718-738). The argument is what `github_service.get_user_repos` came back
with: `Except.error ()` when anything inside the `try` raised (the `except`
branch returns `True`, "benefit of doubt"); otherwise the repo list.  An
empty list returns `False`; then a repo among the first 5 with a `pushed_at`
within the last 180 days yields `True`, else `False`. -/
def checkRecentActivity (fetched : Except Unit (List Repo)) (now : Int) : Bool :=
  match fetched with
  | .error _ => true
  | .ok repos =>
      if repos.isEmpty then false
      else
        let sixMonthsAgo := now - 180
        (repos.take 5).any (fun r =>
          match r.pushed_at with
          | some d => decide (d > sixMonthsAgo)
          | none => false)

/-- Embedding of `HunterAgent._build_candidate_profile`. -/
def buildCandidateProfile (p : UserProfile) (quality_score : Nat) :
    CandidateProfile :=
  { username := p.login
    profile_url := p.html_url
    avatar_url := p.avatar_url
    bio := p.bio
    name := p.name
    location := p.location
    email := p.email
    hireable := p.hireable
    company := p.company
    public_repos := p.public_repos
    followers := p.followers
    following := p.following
    quality_score := quality_score
    created_at := p.created_at }

/-- Oracle for the hunter's calls into `github_service`: what each call
would produce for this run.  `getUser` yields `none` when the profile fetch
returned `None` (404 or retry exhaustion); `userRepos` is the input of the
recent-activity check (`Except.error ()` = the fetch raised); the two search
calls may raise (`RateLimitError` from the pre-check propagates out of them,
other failures are also possible), hence `Except PyExc`. -/
structure GithubEnv where
  getUser : String → Option UserProfile
  userRepos : String → Except Unit (List Repo)
  searchUsers : String → Nat → Nat → Except PyExc (List String)
  searchRepos : String → Nat → Nat → Except PyExc (List RepoItem)
  repoContributors : String → String → Nat → List String

/-- The organisational marker tokens of `_process_github_users`. -/
def ORG_MARKERS : List String := ["organization", "company", "official", "team"]

/-- One iteration of the user loop of `HunterAgent._process_github_users`
(hunter.py lines 617-678): `none` means the `continue` of the matching
filter fired, `some c` means the user survived every filter and was turned
into a candidate. -/
def processOneUser (env : GithubEnv) (now : Int) (checkRecent : Bool)
    (processed : List String) (username : String) : Option CandidateProfile :=
  if username ∈ processed then none
  else match env.getUser username with
  | none => none
  | some prof =>
      if prof.userType == "Organization" then none
      else
        let bio := pyLower (prof.bio.getD "")
        let nm := pyLower (prof.name.getD "")
        if ORG_MARKERS.any (fun org => strIn org bio || strIn org nm) then none
        else
          let public_repos := prof.public_repos
          let followers := prof.followers
          let following := prof.following
          if public_repos > 100 && followers < 50 then none
          else if public_repos < 3 then none
          else if following > followers * 3 && followers > 10 then none
          else
            let has_bio := bio != "" && decide (0 < (pyStrip bio).data.length)
            let has_strong_activity := decide (public_repos ≥ 10) || decide (followers ≥ 50)
            if !has_bio && !has_strong_activity then none
            else if checkRecent && !(checkRecentActivity (env.userRepos username) now)
            then none
            else
              let quality_score := calculateQualityScore prof
              if quality_score < 3 then none
              else some (buildCandidateProfile prof quality_score)

/-- Embedding of `HunterAgent._process_github_users`: fold the filter chain
over the search items (only their logins are read), threading the mutable
`self._processed_usernames` set, to which each accepted search login is
added. -/
def processGithubUsers (env : GithubEnv) (now : Int) (checkRecent : Bool) :
    List String → List String → List CandidateProfile × List String
  | processed, [] => ([], processed)
  | processed, username :: rest =>
      match processOneUser env now checkRecent processed username with
      | none => processGithubUsers env now checkRecent processed rest
      | some c =>
          let r := processGithubUsers env now checkRecent (username :: processed) rest
          (c :: r.1, r.2)

/- ---------------------------------------------------------------- -/
/- hunter.py : repository-contributor search path.                   -/
/- ---------------------------------------------------------------- -/

/-- The contributor loop inside `HunterAgent._execute_repo_contributor_search`
(hunter.py lines 562-590): skip falsy or already-processed logins and the
repo owner; fetch the profile; skip missing profiles and organisations;
accept on quality score ≥ 3 alone (this path applies none of the other hard
filters of `_process_github_users`). -/
def processRepoContributors (env : GithubEnv) (owner : String) :
    List String → List String → List CandidateProfile × List String
  | processed, [] => ([], processed)
  | processed, login :: rest =>
      if login == "" || login ∈ processed then
        processRepoContributors env owner processed rest
      else if login == owner then
        processRepoContributors env owner processed rest
      else match env.getUser login with
      | none => processRepoContributors env owner processed rest
      | some prof =>
          if prof.userType == "Organization" then
            processRepoContributors env owner processed rest
          else
            let quality_score := calculateQualityScore prof
            if quality_score ≥ 3 then
              let r := processRepoContributors env owner (login :: processed) rest
              (buildCandidateProfile prof quality_score :: r.1, r.2)
            else
              processRepoContributors env owner processed rest

/-- The repo loop of `_execute_repo_contributor_search` over the (at most 3)
repos taken from the repository search: skip repos with falsy owner or name,
list contributors (`per_page=5`) and process them. -/
def contributorRepoLoop (env : GithubEnv) :
    List String → List RepoItem → List CandidateProfile × List String
  | processed, [] => ([], processed)
  | processed, repo :: rest =>
      if !(pyTruthy repo.ownerLogin) || !(pyTruthy repo.name) then
        contributorRepoLoop env processed rest
      else
        let owner := repo.ownerLogin.getD ""
        let rname := repo.name.getD ""
        let contributors := env.repoContributors owner rname 5
        let r1 := processRepoContributors env owner processed contributors
        let r2 := contributorRepoLoop env r1.2 rest
        (r1.1 ++ r2.1, r2.2)

/-- Embedding of `HunterAgent._execute_repo_contributor_search` (hunter.py
lines 533-605).  NOTE the `except Exception` at lines 599-605 catches every
exception — `RateLimitError` included — into a failed `SearchResult`; this
path has no `except RateLimitError: raise` clause. -/
def executeRepoContributorSearch (env : GithubEnv) (strategy : SearchStrategy)
    (processed : List String) : Except PyExc SearchResult × List String :=
  match env.searchRepos strategy.query strategy.per_page strategy.page with
  | .error e =>
      (.ok { strategy_name := strategy.name, candidates := [], success := false
             error := some (excMessage e) }, processed)
  | .ok repos =>
      let r := contributorRepoLoop env processed (repos.take 3)
      (.ok { strategy_name := strategy.name, candidates := r.1, success := true },
       r.2)

/-- Embedding of `HunterAgent._execute_user_search` (hunter.py lines
507-531): `except RateLimitError: raise` re-raises rate-limit errors, every
other exception becomes a failed `SearchResult`. -/
def executeUserSearch (env : GithubEnv) (now : Int) (strategy : SearchStrategy)
    (processed : List String) : Except PyExc SearchResult × List String :=
  match env.searchUsers strategy.query strategy.per_page strategy.page with
  | .error (.rateLimit t) => (.error (.rateLimit t), processed)
  | .error (.other m) =>
      (.ok { strategy_name := strategy.name, candidates := [], success := false
             error := some m }, processed)
  | .ok users =>
      let r := processGithubUsers env now true processed users
      (.ok { strategy_name := strategy.name, candidates := r.1, success := true },
       r.2)

/- ---------------------------------------------------------------- -/
/- hunter.py : batched parallel execution.                           -/
/- ---------------------------------------------------------------- -/

/-- Strategy dispatch inside `_execute_parallel_searches`: names starting
with `"repo_contributors_"` run the contributor search, the rest run the
user search. -/
def execStrategy (env : GithubEnv) (now : Int) (strategy : SearchStrategy)
    (processed : List String) : Except PyExc SearchResult × List String :=
  if strStarts strategy.name "repo_contributors_" then
    executeRepoContributorSearch env strategy processed
  else
    executeUserSearch env now strategy processed

/-- The `strategies[i:i + batch_size]` slicing with `batch_size = 3`. -/
def chunk3 {α : Type} : List α → List (List α)
  | [] => []
  | a :: b :: c :: rest => [a, b, c] :: chunk3 rest
  | l => [l]

/-- One `asyncio.gather(*tasks, return_exceptions=True)` over a batch:
every member settles, exceptions are returned as values (`Except.error`)
and never propagate, and the shared `self._processed_usernames` set is
threaded through (the model serialises the members of a batch). -/
def execBatch (env : GithubEnv) (now : Int) :
    List String → List SearchStrategy →
    List (Except PyExc SearchResult) × List String
  | processed, [] => ([], processed)
  | processed, s :: rest =>
      let r := execStrategy env now s processed
      let rs := execBatch env now r.2 rest
      (r.1 :: rs.1, rs.2)

/-- The result-processing loop of `_execute_parallel_searches` (hunter.py
lines 464-490): an exception value is logged and skipped, a successful
`SearchResult` contributes its candidates, a failed one is logged and
skipped.  No case re-raises. -/
def collectBatch : List (Except PyExc SearchResult) → List CandidateProfile
  | [] => []
  | .error _ :: rest => collectBatch rest
  | .ok r :: rest => (if r.success then r.candidates else []) ++ collectBatch rest

/-- The batch loop of `_execute_parallel_searches`: run each batch,
accumulate the candidates of its successful members, and stop early once the
accumulated count reaches the cap. -/
def runBatches (env : GithubEnv) (now : Int) (cap : Nat) :
    List String → List CandidateProfile → List (List SearchStrategy) →
    List CandidateProfile × List String
  | processed, acc, [] => (acc, processed)
  | processed, acc, batch :: rest =>
      let r := execBatch env now processed batch
      let acc1 := acc ++ collectBatch r.1
      if cap ≤ acc1.length then (acc1, r.2)
      else runBatches env now cap r.2 acc1 rest

/-- Embedding of `HunterAgent._deduplicate_candidates` (hunter.py lines
705-716): keep the first occurrence of every username. -/
def dedupAux (seen : List String) : List CandidateProfile → List CandidateProfile
  | [] => []
  | c :: rest =>
      if c.username ∈ seen then dedupAux seen rest
      else c :: dedupAux (c.username :: seen) rest

/-- Python entry point `_deduplicate_candidates(candidates)`. -/
def deduplicateCandidates (cs : List CandidateProfile) : List CandidateProfile :=
  dedupAux [] cs

/-- The descending-quality-score order used by
`unique_candidates.sort(key=lambda x: x.get("quality_score", 0), reverse=True)`. -/
def qualityGE (a b : CandidateProfile) : Prop := b.quality_score ≤ a.quality_score

instance : DecidableRel qualityGE := fun a b =>
  inferInstanceAs (Decidable (b.quality_score ≤ a.quality_score))

instance : IsTotal CandidateProfile qualityGE :=
  ⟨fun a b => Nat.le_total b.quality_score a.quality_score⟩

instance : IsTrans CandidateProfile qualityGE :=
  ⟨fun _ _ _ h1 h2 => le_trans h2 h1⟩

/-- Embedding of `HunterAgent._execute_parallel_searches` (hunter.py lines
431-505): batch the strategies by 3, run the batches with early exit at the
cap, then deduplicate by username, sort descending by quality score (a
stable insertion sort, matching Python's stable `list.sort`) and truncate to
the cap (`settings.MAX_CANDIDATES_PER_JOB`).  The function returns normally
on every input: `asyncio.gather(..., return_exceptions=True)` hands every
exception back as a value. -/
def executeParallelSearches (env : GithubEnv) (now : Int) (cap : Nat)
    (strategies : List SearchStrategy) (processed : List String) :
    List CandidateProfile :=
  let r := runBatches env now cap processed [] (chunk3 strategies)
  let unique := deduplicateCandidates r.1
  (List.insertionSort qualityGE unique).take cap

/- ---------------------------------------------------------------- -/
/- The pipeline queue protocol (hunter.execute / analyzer.execute).  -/
/- ---------------------------------------------------------------- -/

/-- An item on an inter-stage `asyncio.Queue`: a candidate, or the `None`
end-of-stream marker. -/
inductive QueueItem where
  | item (c : CandidateProfile)
  | endOfStream
deriving DecidableEq

/-- How the body of `HunterAgent.execute`'s `try` block terminated: it
completed after putting `sent` candidates on the output queue, or it raised
after putting `sent` (the raise can be a `RateLimitError` or anything else;
`emit_event` never raises — `BaseAgent.emit_event` swallows broadcast
errors). -/
inductive HunterBody where
  | completed (sent : List CandidateProfile)
  | raised (sent : List CandidateProfile) (e : PyExc)

/-- Embedding of the termination behaviour of `HunterAgent.execute`
(hunter.py lines 61-151): the full sequence of queue puts, and the exception
the coroutine re-raises, if any.  The `try` suffix puts `None` after the
candidates; the `except RateLimitError` handler emits an event, puts `None`
and re-raises; the `except Exception` handler logs, puts `None` and
re-raises. -/
def hunterExecute : HunterBody → List QueueItem × Option PyExc
  | .completed sent => (sent.map .item ++ [.endOfStream], none)
  | .raised sent e => (sent.map .item ++ [.endOfStream], some e)

/-- Embedding of `AnalyzerAgent.execute` (analyzer.py lines 36-87) as a
function of the input-queue contents: consume until the `None` marker
(forward the candidates whose analysis is truthy), forward the marker and
stop; if the analysis of some candidate raises, the `except` handler puts
`None` downstream and re-raises.  `none` as overall result models the
blocking `await input_queue.get()` on a queue that never delivers a marker:
the stage never terminates. -/
def analyzerExecute (analyze : CandidateProfile → Except PyExc Bool) :
    List QueueItem → Option (List QueueItem × Option PyExc)
  | [] => none
  | .endOfStream :: _ => some ([.endOfStream], none)
  | .item c :: rest =>
      match analyze c with
      | .error e => some ([.endOfStream], some e)
      | .ok true =>
          match analyzerExecute analyze rest with
          | none => none
          | some (tr, ex) => some (.item c :: tr, ex)
      | .ok false => analyzerExecute analyze rest

/- ---------------------------------------------------------------- -/
/- Concrete fixtures for the closed evaluations.                     -/
/- ---------------------------------------------------------------- -/

/-- A plain individual profile that passes every hard filter: 20 public
repos, 30 followers, 10 following, empty bio.  Its quality score is
3 (repos) + 1 (followers ≥ 25) + 1 (ratio 3 ∈ [0.3, 10]) = 5. -/
def mkGoodProfile (login : String) : UserProfile :=
  { login := login
    userType := "User"
    bio := none
    name := none
    location := none
    email := none
    hireable := none
    company := none
    public_repos := 20
    followers := 30
    following := 10
    html_url := "https://github.test/" ++ login
    avatar_url := none
    created_at := none }

/-- A user-search strategy. -/
def stratC1 : SearchStrategy :=
  { name := "topic_ml", description := "Search by topic: ml", query := "q1" }

/-- A contributor-search strategy (name triggers the repo-contributor path). -/
def stratC1repo : SearchStrategy :=
  { name := "repo_contributors_react", description := "Find contributors"
    query := "react stars:>100", per_page := 5 }

/-- Environment in which every search call raises `RateLimitError(1234)`. -/
def envC1 : GithubEnv :=
  { getUser := fun _ => none
    userRepos := fun _ => .ok []
    searchUsers := fun _ _ _ => .error (.rateLimit 1234)
    searchRepos := fun _ _ _ => .error (.rateLimit 1234)
    repoContributors := fun _ _ _ => [] }

/-- Environment in which every search call raises a plain network error. -/
def envC1net : GithubEnv :=
  { getUser := fun _ => none
    userRepos := fun _ => .ok []
    searchUsers := fun _ _ _ => .error (.other "network unreachable")
    searchRepos := fun _ _ _ => .error (.other "network unreachable")
    repoContributors := fun _ _ _ => [] }

/-- A profile hitting the tutorial-account rule: 150 public repos, only 10
followers.  Its quality score is 3 (repos alone). -/
def tutorialProfile : UserProfile :=
  { login := "tutor"
    userType := "User"
    bio := none
    name := none
    location := none
    email := none
    hireable := none
    company := none
    public_repos := 150
    followers := 10
    following := 0
    html_url := "https://github.test/tutor"
    avatar_url := none
    created_at := none }

/-- Environment in which the contributor search of `stratC1repo` discovers
`tutorialProfile` as a contributor of `reactorg/react`. -/
def envC2 : GithubEnv :=
  { getUser := fun u => if u == "tutor" then some tutorialProfile else none
    userRepos := fun _ => .ok []
    searchUsers := fun _ _ _ => .ok []
    searchRepos := fun _ _ _ => .ok [{ ownerLogin := some "reactorg", name := some "react" }]
    repoContributors := fun _ _ _ => ["tutor"] }

/-- The candidate the contributor path builds from `tutorialProfile`. -/
def tutorialCandidate : CandidateProfile := buildCandidateProfile tutorialProfile 3

/-- Environment for the recent-activity evaluations: `carol` passes every
static filter but her repository list comes back empty. -/
def envC3 : GithubEnv :=
  { getUser := fun u => if u == "carol" then some (mkGoodProfile "carol") else none
    userRepos := fun _ => .ok []
    searchUsers := fun _ _ _ => .ok ["carol"]
    searchRepos := fun _ _ _ => .ok []
    repoContributors := fun _ _ _ => [] }

/-- The candidate built from `mkGoodProfile "carol"` (score 5). -/
def carolCandidate : CandidateProfile := buildCandidateProfile (mkGoodProfile "carol") 5

/-- The profile of the spec's capping test: 20 repos, 150 followers, a
60-character bio, hireable, name and location set, following 30.  Points:
3 + 2 + 1 + 1 + 2 + 1 + 1 (ratio 5 ∈ [0.3, 10]) = 11, capped at 10. -/
def cappingProfile : UserProfile :=
  { login := "ada"
    userType := "User"
    bio := some "building distributed systems and developer tooling at scale."
    name := some "Ada L"
    location := some "Berlin"
    email := none
    hireable := some true
    company := none
    public_repos := 20
    followers := 150
    following := 30
    html_url := "https://github.test/ada"
    avatar_url := none
    created_at := none }

/-- Batch fixture: strategy A finds `a1`, `a2`. -/
def stratA : SearchStrategy :=
  { name := "topic_a", description := "Search by topic: a", query := "qa" }

/-- Batch fixture: strategy B (its search raises a network error). -/
def stratB : SearchStrategy :=
  { name := "topic_b", description := "Search by topic: b", query := "qb" }

/-- Batch fixture: strategy C finds `c1`, `c2`, `c3`. -/
def stratC : SearchStrategy :=
  { name := "domain_c", description := "Search domain: c", query := "qc" }

/-- Environment for the one-batch scenario: A and C succeed with 2 and 3
candidates, B raises a network error. -/
def envC8 : GithubEnv :=
  { getUser := fun u =>
      if u == "a1" || u == "a2" || u == "c1" || u == "c2" || u == "c3" then
        some (mkGoodProfile u)
      else none
    userRepos := fun _ => .ok [{ pushed_at := some 990 }]
    searchUsers := fun q _ _ =>
      if q == "qa" then .ok ["a1", "a2"]
      else if q == "qb" then .error (.other "network unreachable")
      else if q == "qc" then .ok ["c1", "c2", "c3"]
      else .ok []
    searchRepos := fun _ _ _ => .ok []
    repoContributors := fun _ _ _ => [] }

/-- Witness strategy: a single user search. -/
def stratW : SearchStrategy :=
  { name := "topic_w", description := "Search by topic: w", query := "qw" }

/-- Witness environment: the search returns `w1` and the already-seeded
`seeded1`; both resolve to good profiles. -/
def envW : GithubEnv :=
  { getUser := fun u =>
      if u == "w1" then some (mkGoodProfile "w1")
      else if u == "seeded1" then some (mkGoodProfile "seeded1")
      else none
    userRepos := fun _ => .ok [{ pushed_at := some 990 }]
    searchUsers := fun _ _ _ => .ok ["w1", "seeded1"]
    searchRepos := fun _ _ _ => .ok []
    repoContributors := fun _ _ _ => [] }

/-- The candidate the witness run accepts. -/
def wCandidate : CandidateProfile := buildCandidateProfile (mkGoodProfile "w1") 5

/-- A fresh service state: default optimistic buckets, all caches empty. -/
def st6 : GitHubState :=
  { rate_limit_remaining := 5000
    rate_limit_reset := 0
    search_rate_limit_remaining := 30
    search_rate_limit_reset := 0
    user_cache := []
    search_cache := []
    repo_cache := []
    repo_search_cache := []
    repo_detail_cache := [] }

/- ---------------------------------------------------------------- -/
/- Helper lemmas.                                                    -/
/- ---------------------------------------------------------------- -/

/-- Case analysis of the rate-limit pre-check. -/
lemma checkRateLimit_cases (remaining reset now : Int) :
    (remaining ≤ 1 ∧ now < reset ∧ 60 < reset - now + 1 ∧
        checkRateLimit remaining reset now = .raiseRateLimit reset) ∨
    (remaining ≤ 1 ∧ now < reset ∧ reset - now + 1 ≤ 60 ∧
        checkRateLimit remaining reset now = .sleepThenProceed (reset - now + 1)) ∨
    ((¬remaining ≤ 1 ∨ reset ≤ now) ∧ checkRateLimit remaining reset now = .proceed) := by
  by_cases h1 : remaining ≤ 1
  · by_cases h2 : reset > now
    · by_cases h3 : reset - now + 1 > 60
      · exact Or.inl ⟨h1, h2, h3, by simp [checkRateLimit, h1, h2, h3]⟩
      · exact Or.inr (Or.inl ⟨h1, h2, by omega, by simp [checkRateLimit, h1, h2, h3]⟩)
    · exact Or.inr (Or.inr ⟨Or.inr (by omega), by simp [checkRateLimit, h1, h2]⟩)
  · exact Or.inr (Or.inr ⟨Or.inl h1, by simp [checkRateLimit, h1]⟩)

/- ---------------------------------------------------------------- -/
/- Claim C5.                                                         -/
/- ---------------------------------------------------------------- -/

/-- C5.  Before dispatching on a bucket with `remaining ≤ 1` and a future
reset, `_check_rate_limit` sleeps until the reset only when the computed
wait is at most 60 seconds, and otherwise raises `RateLimitError` carrying
the reset time; concretely, `remaining = 1, reset = now + 30` sleeps 31
seconds (≥ 30) before dispatching, and `remaining = 1, reset = now + 200`
raises. -/
theorem c5_rate_limit_precheck :
    (∀ now : Int, checkRateLimit 1 (now + 30) now = .sleepThenProceed 31 ∧ (30 : Int) ≤ 31)
    ∧ (∀ now : Int, checkRateLimit 1 (now + 200) now = .raiseRateLimit (now + 200))
    ∧ (∀ remaining reset now w : Int,
        checkRateLimit remaining reset now = .sleepThenProceed w →
          w = reset - now + 1 ∧ w ≤ 60)
    ∧ (∀ remaining reset now t : Int,
        checkRateLimit remaining reset now = .raiseRateLimit t →
          t = reset ∧ 60 < reset - now + 1) := by
  refine ⟨?_, ?_, ?_, ?_⟩
  · intro now
    rcases checkRateLimit_cases 1 (now + 30) now with h | h | h
    · omega
    · refine ⟨?_, by omega⟩
      rw [h.2.2.2]
      congr 1
      omega
    · rcases h.1 with h1 | h1 <;> omega
  · intro now
    rcases checkRateLimit_cases 1 (now + 200) now with h | h | h
    · exact h.2.2.2
    · omega
    · rcases h.1 with h1 | h1 <;> omega
  · intro remaining reset now w h
    rcases checkRateLimit_cases remaining reset now with hc | hc | hc
    · rw [hc.2.2.2] at h; exact absurd h (by simp)
    · rw [hc.2.2.2] at h
      have := RateCheckOutcome.sleepThenProceed.inj h
      omega
    · rw [hc.2] at h; exact absurd h (by simp)
  · intro remaining reset now t h
    rcases checkRateLimit_cases remaining reset now with hc | hc | hc
    · rw [hc.2.2.2] at h
      have := RateCheckOutcome.raiseRateLimit.inj h
      omega
    · rw [hc.2.2.2] at h; exact absurd h (by simp)
    · rw [hc.2] at h; exact absurd h (by simp)

/-- Witness for C5 at `now = 100`: the 30-second case sleeps 31 seconds and
the 200-second case raises with the reset time. -/
theorem c5_rate_limit_precheck_witness :
    checkRateLimit 1 130 100 = .sleepThenProceed 31
    ∧ ((31 : Int) = 130 - 100 + 1 ∧ (31 : Int) ≤ 60)
    ∧ checkRateLimit 1 300 100 = .raiseRateLimit 300 :=
  ⟨(c5_rate_limit_precheck.1 100).1,
   c5_rate_limit_precheck.2.2.1 1 130 100 31 (c5_rate_limit_precheck.1 100).1,
   c5_rate_limit_precheck.2.1 100⟩

/- ---------------------------------------------------------------- -/
/- Claim C10.                                                        -/
/- ---------------------------------------------------------------- -/

/-- C10.  If `remaining ≤ 1` but the stored reset epoch is not in the
future, the pre-check neither sleeps nor raises (the request dispatches
immediately), and the pre-check raises exactly when `remaining ≤ 1`, the
reset is strictly in the future and the computed wait exceeds 60 seconds. -/
theorem c10_stale_reset_proceeds :
    (∀ remaining reset now : Int, remaining ≤ 1 → reset ≤ now →
        checkRateLimit remaining reset now = .proceed)
    ∧ (∀ remaining reset now t : Int,
        checkRateLimit remaining reset now = .raiseRateLimit t ↔
          remaining ≤ 1 ∧ now < reset ∧ 60 < reset - now + 1 ∧ t = reset) := by
  constructor
  · intro remaining reset now h1 h2
    rcases checkRateLimit_cases remaining reset now with hc | hc | hc
    · omega
    · omega
    · exact hc.2
  · intro remaining reset now t
    constructor
    · intro h
      rcases checkRateLimit_cases remaining reset now with hc | hc | hc
      · exact ⟨hc.1, hc.2.1, hc.2.2.1,
          (RateCheckOutcome.raiseRateLimit.inj (hc.2.2.2.symm.trans h)).symm⟩
      · rw [hc.2.2.2] at h; exact absurd h (by simp)
      · rw [hc.2] at h; exact absurd h (by simp)
    · rintro ⟨h1, h2, h3, h4⟩
      rw [h4]
      rcases checkRateLimit_cases remaining reset now with hc | hc | hc
      · exact hc.2.2.2
      · omega
      · rcases hc.1 with h | h <;> omega

/-- Witness for C10: with `remaining = 1, reset = 50, now = 100` the
pre-check dispatches immediately, and with `reset = 300` it raises. -/
theorem c10_stale_reset_proceeds_witness :
    checkRateLimit 1 50 100 = .proceed
    ∧ checkRateLimit 1 300 100 = .raiseRateLimit 300 :=
  ⟨c10_stale_reset_proceeds.1 1 50 100 (by norm_num) (by norm_num),
   (c10_stale_reset_proceeds.2 1 300 100 300).2 ⟨by norm_num, by norm_num, by norm_num, rfl⟩⟩

/- ---------------------------------------------------------------- -/
/- Claim C6.                                                         -/
/- ---------------------------------------------------------------- -/

/-- C6, counterexample.  `get_repo_contributors` is a read-only call of the
client, yet a second identical call (same endpoint and parameters) one
second after the first — within every TTL class of the service — dispatches
to the network again: the claim's "every read-only call" fails. -/
theorem c6_contributors_never_cached :
    (getRepoContributors st6 "o" "r" 5 100 (.ok ["alice"] 4999 50)).2.2 = true
    ∧ (getRepoContributors
        ((getRepoContributors st6 "o" "r" 5 100 (.ok ["alice"] 4999 50)).2.1)
        "o" "r" 5 101 (.ok ["alice"] 4998 50)).2.2 = true
    ∧ ((101 : Int) - 100 < USER_CACHE_TTL ∧ (101 : Int) - 100 < SEARCH_CACHE_TTL
        ∧ (101 : Int) - 100 < REPO_CACHE_TTL) := by
  refine ⟨rfl, rfl, by norm_num [USER_CACHE_TTL, SEARCH_CACHE_TTL, REPO_CACHE_TTL]⟩

/-- C6, amended.  For the cached read paths — `get_user` (TTL 600 s),
`search_users` and `search_repositories` (TTL 300 s), `get_user_repos` and
`get_repo` (TTL 300 s) — starting from an empty cache: the first call
dispatches; a second identical call strictly within the TTL returns the
cached value, leaves the whole service state (rate-limit bookkeeping
included) untouched and does not dispatch; an identical call at or after
TTL expiry dispatches again.  The remaining read endpoints —
`get_repo_contributors`, `get_repo_commits`, `get_repo_languages` and
`get_repo_readme` — consult no cache: every call dispatches (for the
readme, at least one raw request is performed and no service state is
touched). -/
theorem c6_cached_reads :
    (∀ (st : GitHubState) (u : String) (now now' hr hres : Int)
        (prof : UserProfile) (net' : HttpOutcome UserProfile),
      st.user_cache = [] →
        (getUser st u now (.ok prof hr hres)).2.2 = true
        ∧ (now' - now < USER_CACHE_TTL →
            getUser ((getUser st u now (.ok prof hr hres)).2.1) u now' net'
              = (some prof, (getUser st u now (.ok prof hr hres)).2.1, false))
        ∧ (USER_CACHE_TTL ≤ now' - now →
            (getUser ((getUser st u now (.ok prof hr hres)).2.1) u now' net').2.2 = true))
    ∧ (∀ (st : GitHubState) (q : String) (pp pg : Nat) (now now' hr hres : Int)
        (users : List String) (net' : HttpOutcome (List String)),
      st.search_cache = [] →
        (searchUsers st q pp pg now (.ok users hr hres)).2.2 = true
        ∧ (now' - now < SEARCH_CACHE_TTL →
            searchUsers ((searchUsers st q pp pg now (.ok users hr hres)).2.1) q pp pg now' net'
              = (users, (searchUsers st q pp pg now (.ok users hr hres)).2.1, false))
        ∧ (SEARCH_CACHE_TTL ≤ now' - now →
            (searchUsers ((searchUsers st q pp pg now (.ok users hr hres)).2.1) q pp pg now' net').2.2 = true))
    ∧ (∀ (st : GitHubState) (u sort : String) (pp : Nat) (now now' hr hres : Int)
        (repos : List Repo) (net' : HttpOutcome (List Repo)),
      st.repo_cache = [] →
        (getUserRepos st u sort pp now (.ok repos hr hres)).2.2 = true
        ∧ (now' - now < REPO_CACHE_TTL →
            getUserRepos ((getUserRepos st u sort pp now (.ok repos hr hres)).2.1) u sort pp now' net'
              = (repos, (getUserRepos st u sort pp now (.ok repos hr hres)).2.1, false))
        ∧ (REPO_CACHE_TTL ≤ now' - now →
            (getUserRepos ((getUserRepos st u sort pp now (.ok repos hr hres)).2.1) u sort pp now' net').2.2 = true))
    ∧ (∀ (st : GitHubState) (q sort : String) (pp pg : Nat) (now now' hr hres : Int)
        (repos : List RepoItem) (net' : HttpOutcome (List RepoItem)),
      st.repo_search_cache = [] →
        (searchRepositories st q sort pp pg now (.ok repos hr hres)).2.2 = true
        ∧ (now' - now < SEARCH_CACHE_TTL →
            searchRepositories ((searchRepositories st q sort pp pg now (.ok repos hr hres)).2.1) q sort pp pg now' net'
              = (repos, (searchRepositories st q sort pp pg now (.ok repos hr hres)).2.1, false))
        ∧ (SEARCH_CACHE_TTL ≤ now' - now →
            (searchRepositories ((searchRepositories st q sort pp pg now (.ok repos hr hres)).2.1) q sort pp pg now' net').2.2 = true))
    ∧ (∀ (st : GitHubState) (u rn : String) (now now' hr hres : Int)
        (repo : Repo) (net' : HttpOutcome Repo),
      st.repo_detail_cache = [] →
        (getRepo st u rn now (.ok repo hr hres)).2.2 = true
        ∧ (now' - now < REPO_CACHE_TTL →
            getRepo ((getRepo st u rn now (.ok repo hr hres)).2.1) u rn now' net'
              = (some repo, (getRepo st u rn now (.ok repo hr hres)).2.1, false))
        ∧ (REPO_CACHE_TTL ≤ now' - now →
            (getRepo ((getRepo st u rn now (.ok repo hr hres)).2.1) u rn now' net').2.2 = true))
    ∧ (∀ (st : GitHubState) (o rn : String) (pp : Nat) (now : Int)
        (net : HttpOutcome (List String)),
      (getRepoContributors st o rn pp now net).2.2 = true)
    ∧ (∀ (st : GitHubState) (u rn : String) (pp : Nat) (now : Int)
        (net : HttpOutcome (List String)),
      (getRepoCommits st u rn pp now net).2.2 = true)
    ∧ (∀ (st : GitHubState) (u rn : String) (now : Int)
        (net : HttpOutcome (List (String × Nat))),
      (getRepoLanguages st u rn now net).2.2 = true)
    ∧ (∀ (st : GitHubState) (u rn : String) (fetch : String → RawResponse),
      (getRepoReadme st u rn fetch).2.1 = st
      ∧ 1 ≤ (getRepoReadme st u rn fetch).2.2) := by
  refine ⟨?_, ?_, ?_, ?_, ?_, ?_, ?_, ?_, ?_⟩
  · intro st u now now' hr hres prof net' hst
    refine ⟨?_, fun h => ?_, fun h => ?_⟩
    · simp [getUser, cacheGet, hst]
    · simp [getUser, cacheGet, cacheSet, hst, h]
    · have hge : ¬(now' - now < USER_CACHE_TTL) := by omega
      cases net' <;> simp [getUser, cacheGet, cacheSet, hst, hge]
  · intro st q pp pg now now' hr hres users net' hst
    refine ⟨?_, fun h => ?_, fun h => ?_⟩
    · simp [searchUsers, cacheGet, hst]
    · simp [searchUsers, cacheGet, cacheSet, hst, h]
    · have hge : ¬(now' - now < SEARCH_CACHE_TTL) := by omega
      cases net' <;> simp [searchUsers, cacheGet, cacheSet, hst, hge]
  · intro st u sort pp now now' hr hres repos net' hst
    refine ⟨?_, fun h => ?_, fun h => ?_⟩
    · simp [getUserRepos, cacheGet, hst]
    · simp [getUserRepos, cacheGet, cacheSet, hst, h]
    · have hge : ¬(now' - now < REPO_CACHE_TTL) := by omega
      cases net' <;> simp [getUserRepos, cacheGet, cacheSet, hst, hge]
  · intro st q sort pp pg now now' hr hres repos net' hst
    refine ⟨?_, fun h => ?_, fun h => ?_⟩
    · simp [searchRepositories, cacheGet, hst]
    · simp [searchRepositories, cacheGet, cacheSet, hst, h]
    · have hge : ¬(now' - now < SEARCH_CACHE_TTL) := by omega
      cases net' <;> simp [searchRepositories, cacheGet, cacheSet, hst, hge]
  · intro st u rn now now' hr hres repo net' hst
    refine ⟨?_, fun h => ?_, fun h => ?_⟩
    · simp [getRepo, cacheGet, hst]
    · simp [getRepo, cacheGet, cacheSet, hst, h]
    · have hge : ¬(now' - now < REPO_CACHE_TTL) := by omega
      cases net' <;> simp [getRepo, cacheGet, cacheSet, hst, hge]
  · intro st o rn pp now net
    cases net <;> rfl
  · intro st u rn pp now net
    cases net <;> rfl
  · intro st u rn now net
    cases net <;> rfl
  · intro st u rn fetch
    refine ⟨rfl, ?_⟩
    show 1 ≤ (getRepoReadmeLoop fetch u rn
      ["README.md", "README.rst", "README.txt", "README"]).2
    simp only [getRepoReadmeLoop]
    repeat' split
    all_goals omega

/-- Witness for C6 amended: a `get_user` fetch of `alice` at `t = 100`
followed by the identical call at `t = 101` is served from the cache with
the state untouched, while the identical call at `t = 800` dispatches; a
`search_repositories` call and a `get_repo` call repeated identically at
`t = 101` are likewise served from their caches without dispatch. -/
theorem c6_cached_reads_witness :
    getUser ((getUser st6 "alice" 100 (.ok (mkGoodProfile "alice") 4999 50)).2.1)
        "alice" 101 .failed
      = (some (mkGoodProfile "alice"),
         (getUser st6 "alice" 100 (.ok (mkGoodProfile "alice") 4999 50)).2.1, false)
    ∧ (getUser ((getUser st6 "alice" 100 (.ok (mkGoodProfile "alice") 4999 50)).2.1)
        "alice" 800 .failed).2.2 = true
    ∧ searchRepositories ((searchRepositories st6 "react stars:>100" "stars" 5 1 100
          (.ok [{ ownerLogin := some "o", name := some "r" }] 29 50)).2.1)
        "react stars:>100" "stars" 5 1 101 .failed
      = ([{ ownerLogin := some "o", name := some "r" }],
         (searchRepositories st6 "react stars:>100" "stars" 5 1 100
           (.ok [{ ownerLogin := some "o", name := some "r" }] 29 50)).2.1, false)
    ∧ getRepo ((getRepo st6 "o" "r" 100 (.ok { pushed_at := some 990 } 4999 50)).2.1)
        "o" "r" 101 .failed
      = (some { pushed_at := some 990 },
         (getRepo st6 "o" "r" 100 (.ok { pushed_at := some 990 } 4999 50)).2.1, false) :=
  ⟨(c6_cached_reads.1 st6 "alice" 100 101 4999 50 (mkGoodProfile "alice") .failed rfl).2.1
      (by norm_num [USER_CACHE_TTL]),
   (c6_cached_reads.1 st6 "alice" 100 800 4999 50 (mkGoodProfile "alice") .failed rfl).2.2
      (by norm_num [USER_CACHE_TTL]),
   (c6_cached_reads.2.2.2.1 st6 "react stars:>100" "stars" 5 1 100 101 29 50
      [{ ownerLogin := some "o", name := some "r" }] .failed rfl).2.1
      (by norm_num [SEARCH_CACHE_TTL]),
   (c6_cached_reads.2.2.2.2.1 st6 "o" "r" 100 101 4999 50
      { pushed_at := some 990 } .failed rfl).2.1
      (by norm_num [REPO_CACHE_TTL])⟩

/-- Projections of `buildCandidateProfile`. -/
@[simp] lemma buildCandidateProfile_username (p : UserProfile) (s : Nat) :
    (buildCandidateProfile p s).username = p.login := rfl

@[simp] lemma buildCandidateProfile_quality_score (p : UserProfile) (s : Nat) :
    (buildCandidateProfile p s).quality_score = s := rfl

@[simp] lemma buildCandidateProfile_public_repos (p : UserProfile) (s : Nat) :
    (buildCandidateProfile p s).public_repos = p.public_repos := rfl

@[simp] lemma buildCandidateProfile_followers (p : UserProfile) (s : Nat) :
    (buildCandidateProfile p s).followers = p.followers := rfl

/-- Inversion of one accepted user of `_process_github_users`: the search
login was not yet processed, the profile was fetched, the candidate is built
from it with its computed quality score, the score is at least 3, and the
tutorial-account condition does not hold of the profile. -/
lemma processOneUser_some {env : GithubEnv} {now : Int} {cr : Bool}
    {processed : List String} {u : String} {c : CandidateProfile}
    (h : processOneUser env now cr processed u = some c) :
    u ∉ processed ∧ ∃ prof, env.getUser u = some prof ∧
      c = buildCandidateProfile prof (calculateQualityScore prof) ∧
      3 ≤ calculateQualityScore prof ∧
      ¬(prof.public_repos > 100 ∧ prof.followers < 50) := by
  by_cases hp : u ∈ processed
  · simp [processOneUser, hp] at h
  · refine ⟨hp, ?_⟩
    cases hg : env.getUser u with
    | none => simp [processOneUser, hp, hg] at h
    | some prof =>
        refine ⟨prof, rfl, ?_⟩
        simp only [processOneUser, hp, hg, if_false, ite_false] at h
        repeat' split at h
        all_goals first
          | (exfalso; exact Option.noConfusion h)
          | skip
        rename_i h1 h2 h3 h4 h5 h6 h7 h8
        refine ⟨(Option.some.inj h).symm, by omega, ?_⟩
        intro hcontra
        apply h3
        simp [hcontra.1, hcontra.2]

/-- The processed-username set only grows through `_process_github_users`. -/
lemma processGithubUsers_subset (env : GithubEnv) (now : Int) (cr : Bool)
    (processed users : List String) :
    processed ⊆ (processGithubUsers env now cr processed users).2 := by
  induction processed, users using processGithubUsers.induct env now cr with
  | case1 processed => simp [processGithubUsers]
  | case2 processed u rest hp ih =>
      simpa [processGithubUsers, hp] using ih
  | case3 processed u rest c hp ih =>
      intro x hx
      have heq : (processGithubUsers env now cr processed (u :: rest)).2
          = (processGithubUsers env now cr (u :: processed) rest).2 := by
        simp [processGithubUsers, hp]
      rw [heq]
      exact ih (List.mem_cons_of_mem _ hx)

/-- Every candidate produced by `_process_github_users` comes from a fetched
profile whose search login was not yet in the processed set, carries its
computed quality score (at least 3), and does not satisfy the
tutorial-account condition. -/
lemma processGithubUsers_mem (env : GithubEnv) (now : Int) (cr : Bool)
    (processed users : List String) :
    ∀ c ∈ (processGithubUsers env now cr processed users).1,
    ∃ u prof, env.getUser u = some prof ∧ u ∉ processed ∧
      c = buildCandidateProfile prof (calculateQualityScore prof) ∧
      3 ≤ calculateQualityScore prof ∧
      ¬(prof.public_repos > 100 ∧ prof.followers < 50) := by
  induction processed, users using processGithubUsers.induct env now cr with
  | case1 processed => simp [processGithubUsers]
  | case2 processed u rest hp ih =>
      intro c hc
      rw [show (processGithubUsers env now cr processed (u :: rest)).1
          = (processGithubUsers env now cr processed rest).1 from by
        simp [processGithubUsers, hp]] at hc
      exact ih c hc
  | case3 processed u rest c0 hp ih =>
      intro c hc
      rw [show (processGithubUsers env now cr processed (u :: rest)).1
          = c0 :: (processGithubUsers env now cr (u :: processed) rest).1 from by
        simp [processGithubUsers, hp]] at hc
      rcases List.mem_cons.mp hc with rfl | hc'
      · obtain ⟨hpu, prof, hg, hco, hs, ht⟩ := processOneUser_some hp
        exact ⟨u, prof, hg, hpu, hco, hs, ht⟩
      · obtain ⟨u', prof, hg, hpu, hrest⟩ := ih c hc'
        exact ⟨u', prof, hg, fun hmem => hpu (List.mem_cons_of_mem _ hmem), hrest⟩

/-- The processed-username set only grows through the contributor loop. -/
lemma processRepoContributors_subset (env : GithubEnv) (owner : String)
    (processed : List String) (ls : List String) :
    processed ⊆ (processRepoContributors env owner processed ls).2 := by
  induction processed, ls using processRepoContributors.induct env owner with
  | case1 processed => simp [processRepoContributors]
  | case2 processed u rest h1 ih => simpa [processRepoContributors, h1] using ih
  | case3 processed u rest h1 h2 ih => simpa [processRepoContributors, h1, h2] using ih
  | case4 processed u rest h1 h2 hg ih => simpa [processRepoContributors, h1, h2, hg] using ih
  | case5 processed u rest h1 h2 prof hg horg ih =>
      simpa [processRepoContributors, h1, h2, hg, horg] using ih
  | case6 processed u rest h1 h2 prof hg horg qs hq =>
      rename_i ih
      intro x hx
      have heq : (processRepoContributors env owner processed (u :: rest)).2
          = (processRepoContributors env owner (u :: processed) rest).2 := by
        simp [processRepoContributors, h1, h2, hg, horg, hq]
      rw [heq]
      exact ih (List.mem_cons_of_mem _ hx)
  | case7 processed u rest h1 h2 prof hg horg qs hq =>
      rename_i ih
      simpa [processRepoContributors, h1, h2, hg, horg, hq] using ih

/-- Every candidate produced by the contributor loop comes from a fetched
profile whose contributor login was not yet processed, and its quality score
is the computed one, at least 3. -/
lemma processRepoContributors_mem (env : GithubEnv) (owner : String)
    (processed : List String) (ls : List String) :
    ∀ c ∈ (processRepoContributors env owner processed ls).1,
    ∃ u prof, env.getUser u = some prof ∧ u ∉ processed ∧
      c = buildCandidateProfile prof (calculateQualityScore prof) ∧
      3 ≤ calculateQualityScore prof := by
  induction processed, ls using processRepoContributors.induct env owner with
  | case1 processed => simp [processRepoContributors]
  | case2 processed u rest h1 ih =>
      intro c hc
      rw [show (processRepoContributors env owner processed (u :: rest)).1
          = (processRepoContributors env owner processed rest).1 from by
        simp [processRepoContributors, h1]] at hc
      exact ih c hc
  | case3 processed u rest h1 h2 ih =>
      intro c hc
      rw [show (processRepoContributors env owner processed (u :: rest)).1
          = (processRepoContributors env owner processed rest).1 from by
        simp [processRepoContributors, h1, h2]] at hc
      exact ih c hc
  | case4 processed u rest h1 h2 hg ih =>
      intro c hc
      rw [show (processRepoContributors env owner processed (u :: rest)).1
          = (processRepoContributors env owner processed rest).1 from by
        simp [processRepoContributors, h1, h2, hg]] at hc
      exact ih c hc
  | case5 processed u rest h1 h2 prof hg horg ih =>
      intro c hc
      rw [show (processRepoContributors env owner processed (u :: rest)).1
          = (processRepoContributors env owner processed rest).1 from by
        simp [processRepoContributors, h1, h2, hg, horg]] at hc
      exact ih c hc
  | case6 processed u rest h1 h2 prof hg horg qs hq =>
      rename_i ih
      intro c hc
      rw [show (processRepoContributors env owner processed (u :: rest)).1
          = buildCandidateProfile prof (calculateQualityScore prof)
              :: (processRepoContributors env owner (u :: processed) rest).1 from by
        simp [processRepoContributors, h1, h2, hg, horg, hq]] at hc
      rcases List.mem_cons.mp hc with rfl | hc'
      · have hpu : u ∉ processed := by
          simp only [Bool.or_eq_true, beq_iff_eq, decide_eq_true_eq, not_or] at h1
          exact h1.2
        exact ⟨u, prof, hg, hpu, rfl, hq⟩
      · obtain ⟨u', prof', hg', hpu', hrest⟩ := ih c hc'
        exact ⟨u', prof', hg', fun hmem => hpu' (List.mem_cons_of_mem _ hmem), hrest⟩
  | case7 processed u rest h1 h2 prof hg horg qs hq =>
      rename_i ih
      intro c hc
      rw [show (processRepoContributors env owner processed (u :: rest)).1
          = (processRepoContributors env owner processed rest).1 from by
        simp [processRepoContributors, h1, h2, hg, horg, hq]] at hc
      exact ih c hc

/-- The processed set only grows through the repo loop. -/
lemma contributorRepoLoop_subset (env : GithubEnv)
    (processed : List String) (ls : List RepoItem) :
    processed ⊆ (contributorRepoLoop env processed ls).2 := by
  induction processed, ls using contributorRepoLoop.induct env with
  | case1 processed => simp [contributorRepoLoop]
  | case2 processed repo rest h1 ih => simpa [contributorRepoLoop, h1] using ih
  | case3 processed repo rest h1 =>
      rename_i ih
      intro x hx
      have heq : (contributorRepoLoop env processed (repo :: rest)).2
          = (contributorRepoLoop env
              (processRepoContributors env (repo.ownerLogin.getD "") processed
                (env.repoContributors (repo.ownerLogin.getD "") (repo.name.getD "") 5)).2
              rest).2 := by
        simp [contributorRepoLoop, h1]
      rw [heq]
      exact ih (processRepoContributors_subset env _ processed _ hx)

/-- Candidate inversion through the repo loop. -/
lemma contributorRepoLoop_mem (env : GithubEnv)
    (processed : List String) (ls : List RepoItem) :
    ∀ c ∈ (contributorRepoLoop env processed ls).1,
    ∃ u prof, env.getUser u = some prof ∧ u ∉ processed ∧
      c = buildCandidateProfile prof (calculateQualityScore prof) ∧
      3 ≤ calculateQualityScore prof := by
  induction processed, ls using contributorRepoLoop.induct env with
  | case1 processed => simp [contributorRepoLoop]
  | case2 processed repo rest h1 ih =>
      intro c hc
      rw [show (contributorRepoLoop env processed (repo :: rest)).1
          = (contributorRepoLoop env processed rest).1 from by
        simp [contributorRepoLoop, h1]] at hc
      exact ih c hc
  | case3 processed repo rest h1 =>
      rename_i ih
      intro c hc
      rw [show (contributorRepoLoop env processed (repo :: rest)).1
          = (processRepoContributors env (repo.ownerLogin.getD "") processed
              (env.repoContributors (repo.ownerLogin.getD "") (repo.name.getD "") 5)).1
            ++ (contributorRepoLoop env
              (processRepoContributors env (repo.ownerLogin.getD "") processed
                (env.repoContributors (repo.ownerLogin.getD "") (repo.name.getD "") 5)).2
              rest).1 from by
        simp [contributorRepoLoop, h1]] at hc
      rcases List.mem_append.mp hc with hc1 | hc2
      · exact processRepoContributors_mem env _ processed _ c hc1
      · obtain ⟨u, prof, hg, hpu, hrest⟩ := ih c hc2
        exact ⟨u, prof, hg,
          fun hmem => hpu (processRepoContributors_subset env _ processed _ hmem), hrest⟩

/-- The processed set only grows through one strategy execution. -/
lemma execStrategy_subset (env : GithubEnv) (now : Int) (s : SearchStrategy)
    (processed : List String) :
    processed ⊆ (execStrategy env now s processed).2 := by
  unfold execStrategy executeRepoContributorSearch executeUserSearch
  split
  · cases hs : env.searchRepos s.query s.per_page s.page with
    | error e => simp
    | ok repos => simpa using contributorRepoLoop_subset env processed (repos.take 3)
  · cases hs : env.searchUsers s.query s.per_page s.page with
    | error e => cases e <;> simp
    | ok users => simpa using processGithubUsers_subset env now true processed users

/-- Candidate inversion through one strategy execution: every candidate of a
gathered `SearchResult` comes from a fetched profile not yet processed, with
its computed quality score, at least 3. -/
lemma execStrategy_mem (env : GithubEnv) (now : Int) (s : SearchStrategy)
    (processed : List String) (r : SearchResult)
    (hr : (execStrategy env now s processed).1 = .ok r) :
    ∀ c ∈ r.candidates,
    ∃ u prof, env.getUser u = some prof ∧ u ∉ processed ∧
      c = buildCandidateProfile prof (calculateQualityScore prof) ∧
      3 ≤ calculateQualityScore prof := by
  unfold execStrategy executeRepoContributorSearch executeUserSearch at hr
  split at hr
  · cases hs : env.searchRepos s.query s.per_page s.page with
    | error e =>
        rw [hs] at hr
        simp only [Except.ok.injEq] at hr
        subst hr
        simp
    | ok repos =>
        rw [hs] at hr
        simp only [Except.ok.injEq] at hr
        subst hr
        simpa using contributorRepoLoop_mem env processed (repos.take 3)
  · cases hs : env.searchUsers s.query s.per_page s.page with
    | error e =>
        cases e with
        | rateLimit t => rw [hs] at hr; exact absurd hr (by simp)
        | other m =>
            rw [hs] at hr
            simp only [Except.ok.injEq] at hr
            subst hr
            simp
    | ok users =>
        rw [hs] at hr
        simp only [Except.ok.injEq] at hr
        subst hr
        intro c hc
        obtain ⟨u, prof, hg, hpu, hco, hsc, _⟩ :=
          processGithubUsers_mem env now true processed users c (by simpa using hc)
        exact ⟨u, prof, hg, hpu, hco, hsc⟩

/-- The processed set only grows through a batch. -/
lemma execBatch_subset (env : GithubEnv) (now : Int)
    (processed : List String) (batch : List SearchStrategy) :
    processed ⊆ (execBatch env now processed batch).2 := by
  induction processed, batch using execBatch.induct env now with
  | case1 processed => simp [execBatch]
  | case2 processed s rest =>
      rename_i ih
      intro x hx
      have heq : (execBatch env now processed (s :: rest)).2
          = (execBatch env now (execStrategy env now s processed).2 rest).2 := by
        simp [execBatch]
      rw [heq]
      exact ih (execStrategy_subset env now s processed hx)

/-- Candidate inversion through the gather-and-collect step of one batch. -/
lemma collectBatch_execBatch_mem (env : GithubEnv) (now : Int)
    (processed : List String) (batch : List SearchStrategy) :
    ∀ c ∈ collectBatch (execBatch env now processed batch).1,
    ∃ u prof, env.getUser u = some prof ∧ u ∉ processed ∧
      c = buildCandidateProfile prof (calculateQualityScore prof) ∧
      3 ≤ calculateQualityScore prof := by
  induction processed, batch using execBatch.induct env now with
  | case1 processed => simp [execBatch, collectBatch]
  | case2 processed s rest =>
      rename_i ih
      intro c hc
      rw [show (execBatch env now processed (s :: rest)).1
          = (execStrategy env now s processed).1
            :: (execBatch env now (execStrategy env now s processed).2 rest).1 from by
        simp [execBatch]] at hc
      have hrec : ∀ hcm : c ∈ collectBatch
          (execBatch env now (execStrategy env now s processed).2 rest).1,
          ∃ u prof, env.getUser u = some prof ∧ u ∉ processed ∧
            c = buildCandidateProfile prof (calculateQualityScore prof) ∧
            3 ≤ calculateQualityScore prof := by
        intro hcm
        obtain ⟨u, prof, hg, hpu, hrest⟩ := ih c hcm
        exact ⟨u, prof, hg,
          fun hmem => hpu (execStrategy_subset env now s processed hmem), hrest⟩
      cases hres : (execStrategy env now s processed).1 with
      | error e =>
          rw [hres] at hc
          rw [show collectBatch (Except.error e
              :: (execBatch env now (execStrategy env now s processed).2 rest).1)
              = collectBatch (execBatch env now (execStrategy env now s processed).2 rest).1
            from by simp [collectBatch]] at hc
          exact hrec hc
      | ok res =>
          rw [hres] at hc
          rw [show collectBatch (Except.ok res
              :: (execBatch env now (execStrategy env now s processed).2 rest).1)
              = (if res.success then res.candidates else [])
                ++ collectBatch (execBatch env now (execStrategy env now s processed).2 rest).1
            from by simp [collectBatch]] at hc
          rcases List.mem_append.mp hc with hc1 | hc2
          · have hcand : c ∈ res.candidates := by
              by_cases hs : res.success
              · simpa [hs] using hc1
              · simp [hs] at hc1
            exact execStrategy_mem env now s processed res hres c hcand
          · exact hrec hc2

/-- Candidate inversion through the batch loop. -/
lemma runBatches_mem (env : GithubEnv) (now : Int) (cap : Nat)
    (processed : List String) (acc : List CandidateProfile)
    (bs : List (List SearchStrategy)) :
    ∀ c ∈ (runBatches env now cap processed acc bs).1,
    c ∈ acc ∨ ∃ u prof, env.getUser u = some prof ∧ u ∉ processed ∧
      c = buildCandidateProfile prof (calculateQualityScore prof) ∧
      3 ≤ calculateQualityScore prof := by
  induction processed, acc, bs using runBatches.induct env now cap with
  | case1 processed acc =>
      intro c hc
      exact Or.inl (by simpa [runBatches] using hc)
  | case2 processed acc batch rest =>
      rename_i hstop
      intro c hc
      rw [show (runBatches env now cap processed acc (batch :: rest)).1
          = acc ++ collectBatch (execBatch env now processed batch).1 from by
        simp only [runBatches]
        rw [if_pos hstop]] at hc
      rcases List.mem_append.mp hc with hc1 | hc2
      · exact Or.inl hc1
      · exact Or.inr (collectBatch_execBatch_mem env now processed batch c hc2)
  | case3 processed acc batch rest =>
      rename_i hstop ih
      intro c hc
      rw [show (runBatches env now cap processed acc (batch :: rest)).1
          = (runBatches env now cap (execBatch env now processed batch).2
              (acc ++ collectBatch (execBatch env now processed batch).1) rest).1 from by
        simp only [runBatches]
        rw [if_neg hstop]] at hc
      rcases ih c hc with hacc | ⟨u, prof, hg, hpu, hrest⟩
      · rcases List.mem_append.mp hacc with hc1 | hc2
        · exact Or.inl hc1
        · exact Or.inr (collectBatch_execBatch_mem env now processed batch c hc2)
      · exact Or.inr ⟨u, prof, hg,
          fun hmem => hpu (execBatch_subset env now processed batch hmem), hrest⟩

/-- Deduplication only keeps candidates that were present. -/
lemma dedupAux_mem (seen : List String) (l : List CandidateProfile) :
    ∀ c ∈ dedupAux seen l, c ∈ l := by
  induction l generalizing seen with
  | nil => simp [dedupAux]
  | cons c0 rest ih =>
      intro c hc
      by_cases hs : c0.username ∈ seen
      · simp only [dedupAux, if_pos hs] at hc
        exact List.mem_cons_of_mem _ (ih seen c hc)
      · simp only [dedupAux, if_neg hs] at hc
        rcases List.mem_cons.mp hc with rfl | hc'
        · exact List.mem_cons_self _ _
        · exact List.mem_cons_of_mem _ (ih _ c hc')

/-- The usernames surviving deduplication are distinct and avoid `seen`. -/
lemma dedupAux_nodup (l : List CandidateProfile) :
    ∀ seen, ((dedupAux seen l).map CandidateProfile.username).Nodup
      ∧ ∀ u ∈ (dedupAux seen l).map CandidateProfile.username, u ∉ seen := by
  induction l with
  | nil => intro seen; simp [dedupAux]
  | cons c0 rest ih =>
      intro seen
      by_cases hs : c0.username ∈ seen
      · simpa only [dedupAux, if_pos hs] using ih seen
      · simp only [dedupAux, if_neg hs, List.map_cons]
        obtain ⟨ihn, ihs⟩ := ih (c0.username :: seen)
        refine ⟨List.nodup_cons.mpr ⟨?_, ihn⟩, ?_⟩
        · intro hmem
          exact ihs _ hmem (List.mem_cons_self _ _)
        · intro u hu
          rcases List.mem_cons.mp hu with rfl | hu'
          · exact hs
          · exact fun hcon => ihs u hu' (List.mem_cons_of_mem _ hcon)

/-- Candidate inversion through the whole parallel executor: every output
candidate comes from a fetched profile whose login was not in the seeded
set; the candidate is built from that profile with its computed quality
score, which is at least 3. -/
lemma executeParallelSearches_mem (env : GithubEnv) (now : Int) (cap : Nat)
    (strategies : List SearchStrategy) (seeded : List String) :
    ∀ c ∈ executeParallelSearches env now cap strategies seeded,
    ∃ u prof, env.getUser u = some prof ∧ u ∉ seeded ∧
      c = buildCandidateProfile prof (calculateQualityScore prof) ∧
      3 ≤ calculateQualityScore prof := by
  intro c hc
  have h1 : c ∈ List.insertionSort qualityGE (deduplicateCandidates
      (runBatches env now cap seeded [] (chunk3 strategies)).1) :=
    List.mem_of_mem_take hc
  have h2 : c ∈ deduplicateCandidates
      (runBatches env now cap seeded [] (chunk3 strategies)).1 :=
    (List.perm_insertionSort qualityGE _).mem_iff.mp h1
  have h3 : c ∈ (runBatches env now cap seeded [] (chunk3 strategies)).1 :=
    dedupAux_mem [] _ c h2
  rcases runBatches_mem env now cap seeded [] (chunk3 strategies) c h3 with hacc | hP
  · exact absurd hacc (List.not_mem_nil c)
  · exact hP

/-- If a queue ever delivers the end-of-stream marker, the analyzer
terminates (it does not block forever) and its own downstream trace ends
with the marker. -/
lemma analyzerExecute_total (analyze : CandidateProfile → Except PyExc Bool) :
    ∀ inputs : List QueueItem, QueueItem.endOfStream ∈ inputs →
    ∃ tr ex, analyzerExecute analyze inputs = some (tr, ex)
      ∧ tr.getLast? = some QueueItem.endOfStream := by
  intro inputs
  induction inputs with
  | nil => intro h; exact absurd h (List.not_mem_nil _)
  | cons q rest ih =>
      intro h
      cases q with
      | endOfStream => exact ⟨[.endOfStream], none, rfl, rfl⟩
      | item c =>
          have hrest : QueueItem.endOfStream ∈ rest := by
            rcases List.mem_cons.mp h with heq | hm
            · exact absurd heq (by simp)
            · exact hm
          cases han : analyze c with
          | error e =>
              exact ⟨[.endOfStream], some e, by simp [analyzerExecute, han], rfl⟩
          | ok b =>
              cases b with
              | true =>
                  obtain ⟨tr, ex, heq, hlast⟩ := ih hrest
                  refine ⟨.item c :: tr, ex, by simp [analyzerExecute, han, heq], ?_⟩
                  cases tr with
                  | nil => simp at hlast
                  | cons t ts => rw [List.getLast?_cons_cons]; exact hlast
              | false =>
                  obtain ⟨tr, ex, heq, hlast⟩ := ih hrest
                  exact ⟨tr, ex, by simp [analyzerExecute, han, heq], hlast⟩

/- ---------------------------------------------------------------- -/
/- Claim C9.                                                         -/
/- ---------------------------------------------------------------- -/

/-- C9.  On every termination path of `HunterAgent.execute` — normal
completion, `RateLimitError`, or any other exception, raised after any
number of candidates were already put — the last item put on the downstream
queue is the `None` end-of-stream marker; consequently the analyzer stage
terminates on that queue (never blocks forever) and itself ends its
downstream trace with the marker, on every one of its own termination
paths. -/
theorem c9_end_of_stream_always_emitted :
    ∀ (body : HunterBody) (analyze : CandidateProfile → Except PyExc Bool),
      (hunterExecute body).1.getLast? = some QueueItem.endOfStream
      ∧ ∃ tr ex, analyzerExecute analyze (hunterExecute body).1 = some (tr, ex)
          ∧ tr.getLast? = some QueueItem.endOfStream := by
  intro body analyze
  constructor
  · cases body <;> simp [hunterExecute]
  · apply analyzerExecute_total
    cases body <;> simp [hunterExecute]

/- ---------------------------------------------------------------- -/
/- Claim C1.                                                         -/
/- ---------------------------------------------------------------- -/

/-- C1, evaluation at the failing input.  A user-search strategy whose
`search_users` call raises `RateLimitError` does re-raise it out of
`_execute_user_search` (first conjunct) — but
`asyncio.gather(..., return_exceptions=True)` hands the exception back as a
value, the result loop only logs it, and `_execute_parallel_searches`
returns normally (second conjunct), with exactly the same outcome as for a
plain network error (third conjunct).  On the repo-contributor path the
`except Exception` clause even captures the `RateLimitError` into a failed
`SearchResult` (fourth conjunct).  So a `RateLimitError` raised inside a
batch never propagates to the caller, contradicting the claim and the
code's own `except RateLimitError` handler in `HunterAgent.execute`. -/
theorem c1_rate_limit_error_does_not_propagate :
    executeUserSearch envC1 1000 stratC1 [] = (.error (.rateLimit 1234), [])
    ∧ executeParallelSearches envC1 1000 10 [stratC1] [] = []
    ∧ executeParallelSearches envC1 1000 10 [stratC1] []
        = executeParallelSearches envC1net 1000 10 [stratC1] []
    ∧ executeRepoContributorSearch envC1 stratC1repo []
        = (.ok { strategy_name := "repo_contributors_react", candidates := []
                 success := false, error := some "Rate limit exceeded" }, []) := by
  decide

/- ---------------------------------------------------------------- -/
/- Claim C2.                                                         -/
/- ---------------------------------------------------------------- -/

/-- C2, counterexample.  Discovered through the repository-contributor
strategy, a profile with `public_repos = 150` and `followers = 10` is
accepted and appears in the run's output: the contributor path applies only
the organisation check and the score ≥ 3 cut, not the tutorial-account
rule. -/
theorem c2_tutorial_profile_accepted_via_contributors :
    executeParallelSearches envC2 1000 10 [stratC1repo] [] = [tutorialCandidate]
    ∧ tutorialCandidate.public_repos = 150 ∧ tutorialCandidate.followers = 10
    ∧ tutorialCandidate.public_repos > 100 ∧ tutorialCandidate.followers < 50 := by
  decide

/-- C2, amended.  On the user-search path (`_process_github_users`) the
tutorial-account rule does hold: no produced candidate has more than 100
public repos together with fewer than 50 followers, whatever the profile's
other fields. -/
theorem c2_user_search_rejects_tutorial_profiles :
    ∀ (env : GithubEnv) (now : Int) (cr : Bool) (processed users : List String),
      ∀ c ∈ (processGithubUsers env now cr processed users).1,
        ¬(c.public_repos > 100 ∧ c.followers < 50) := by
  intro env now cr processed users c hc
  obtain ⟨u, prof, hg, hpu, hco, hs, ht⟩ :=
    processGithubUsers_mem env now cr processed users c hc
  rw [hco]
  simpa using ht

/-- Witness for C2 amended, at the accepted candidate of a concrete run. -/
theorem c2_user_search_rejects_tutorial_profiles_witness :
    ¬(carolCandidate.public_repos > 100 ∧ carolCandidate.followers < 50) :=
  c2_user_search_rejects_tutorial_profiles envC3 1000 false [] ["carol"]
    carolCandidate (by decide)

/- ---------------------------------------------------------------- -/
/- Claim C3.                                                         -/
/- ---------------------------------------------------------------- -/

/-- C3, counterexample.  An empty repository list is NOT resolved as a pass:
`_check_recent_activity` returns `False` on it, and `carol` — who passes
every other filter (she is accepted when the recent-activity check is
skipped) — is rejected when it runs.  Only the exception case is resolved
as a pass. -/
theorem c3_empty_repo_list_fails_activity_check :
    checkRecentActivity (.ok []) 1000 = false
    ∧ processGithubUsers envC3 1000 true [] ["carol"] = ([], [])
    ∧ processGithubUsers envC3 1000 false [] ["carol"] = ([carolCandidate], ["carol"])
    ∧ checkRecentActivity (.error ()) 1000 = true := by
  decide

/-- C3, amended.  In the recent-activity check, an error while fetching or
parsing the repositories is resolved as a pass (benefit of the doubt), but
an empty repository list is resolved as a fail — the profile is rejected by
this rule; a non-empty list passes exactly when one of its first 5 repos
was pushed within the last 180 days (in particular, a pass implies the list
was non-empty). -/
theorem c3_recent_activity_resolution :
    (∀ now : Int, checkRecentActivity (.error ()) now = true)
    ∧ (∀ now : Int, checkRecentActivity (.ok []) now = false)
    ∧ (∀ (now : Int) (repos : List Repo),
        checkRecentActivity (.ok repos) now = true → repos ≠ [])
    ∧ (∀ (now d : Int) (repos : List Repo) (r : Repo), r ∈ repos.take 5 →
        r.pushed_at = some d → now - 180 < d →
        checkRecentActivity (.ok repos) now = true) := by
  refine ⟨fun now => rfl, fun now => rfl, ?_, ?_⟩
  · intro now repos h hnil
    subst hnil
    simp [checkRecentActivity] at h
  · intro now d repos r hr hp hd
    have hne : ¬(repos.isEmpty = true) := by
      cases repos with
      | nil => simp at hr
      | cons a l => simp
    simp only [checkRecentActivity, if_neg hne]
    refine List.any_eq_true.mpr ⟨r, hr, ?_⟩
    simp only [hp]
    simpa using hd

/-- Witness for C3 amended: a single repo pushed 10 days ago passes, and a
pass implies the list was non-empty. -/
theorem c3_recent_activity_resolution_witness :
    checkRecentActivity (.ok [{ pushed_at := some 990 }]) 1000 = true
    ∧ ([{ pushed_at := some 990 }] : List Repo) ≠ [] :=
  ⟨c3_recent_activity_resolution.2.2.2 1000 990 [{ pushed_at := some 990 }]
      { pushed_at := some 990 } (by decide) rfl (by norm_num),
   c3_recent_activity_resolution.2.2.1 1000 [{ pushed_at := some 990 }]
     (c3_recent_activity_resolution.2.2.2 1000 990 [{ pushed_at := some 990 }]
       { pushed_at := some 990 } (by decide) rfl (by norm_num))⟩

/- ---------------------------------------------------------------- -/
/- Claim C4.                                                         -/
/- ---------------------------------------------------------------- -/

/-- C4.  The quality score is a pure function of the profile fields that
coincides with the documented point schedule capped at 10 (first conjunct),
always lies within [0, 10] (second conjunct; the lower bound is trivial for
a `Nat`), scores the spec's concrete capping profile — 20 repos, a
60-character bio, name and location set, 150 followers, hireable, following
30 — exactly 10 (third and fourth conjuncts), and every candidate accepted
into the executor's output carries a score of at least 3 (fifth
conjunct). -/
theorem c4_quality_score_schedule :
    (∀ p : UserProfile, calculateQualityScore p = specQualityScore p)
    ∧ (∀ p : UserProfile, calculateQualityScore p ≤ 10)
    ∧ (pyStrip (cappingProfile.bio.getD "")).data.length = 60
    ∧ calculateQualityScore cappingProfile = 10
    ∧ (∀ (env : GithubEnv) (now : Int) (cap : Nat)
        (strategies : List SearchStrategy) (seeded : List String),
        ∀ c ∈ executeParallelSearches env now cap strategies seeded,
          3 ≤ c.quality_score) := by
  refine ⟨?_, ?_, by decide, by decide, ?_⟩
  · intro p
    simp [calculateQualityScore, specQualityScore, specRepoPoints, specBioPoints,
      specNamePoints, specContactPoints, specFollowerPoints, specHireablePoints,
      specRatioPoints]
  · intro p
    simp only [calculateQualityScore]
    exact Nat.min_le_right _ _
  · intro env now cap strategies seeded c hc
    obtain ⟨u, prof, hg, hpu, hco, hs⟩ :=
      executeParallelSearches_mem env now cap strategies seeded c hc
    rw [hco]
    simpa using hs

/-- Witness for C4, at the accepted candidate of a concrete run. -/
theorem c4_quality_score_schedule_witness : 3 ≤ wCandidate.quality_score :=
  c4_quality_score_schedule.2.2.2.2 envW 1000 10 [stratW] ["seeded1"]
    wCandidate (by decide)

/- ---------------------------------------------------------------- -/
/- Claim C7.                                                         -/
/- ---------------------------------------------------------------- -/

/-- C7.  Under the API consistency assumption that a fetched profile's login
is the username it was fetched for, the executor's output for one run has
pairwise-distinct usernames, contains no username from the seeded
already-seen set, is sorted descending by quality score, and has length at
most the configured cap. -/
theorem c7_output_invariants (env : GithubEnv) (now : Int) (cap : Nat)
    (strategies : List SearchStrategy) (seeded : List String)
    (henv : ∀ u p, env.getUser u = some p → p.login = u) :
    ((executeParallelSearches env now cap strategies seeded).map
        CandidateProfile.username).Nodup
    ∧ (∀ c ∈ executeParallelSearches env now cap strategies seeded,
        c.username ∉ seeded)
    ∧ List.Sorted qualityGE (executeParallelSearches env now cap strategies seeded)
    ∧ (executeParallelSearches env now cap strategies seeded).length ≤ cap := by
  have hdef : executeParallelSearches env now cap strategies seeded
      = (List.insertionSort qualityGE (deduplicateCandidates
          (runBatches env now cap seeded [] (chunk3 strategies)).1)).take cap := rfl
  refine ⟨?_, ?_, ?_, ?_⟩
  · have hdd : ((deduplicateCandidates
        (runBatches env now cap seeded [] (chunk3 strategies)).1).map
          CandidateProfile.username).Nodup :=
      (dedupAux_nodup (runBatches env now cap seeded [] (chunk3 strategies)).1 []).1
    have hsortnd : ((List.insertionSort qualityGE (deduplicateCandidates
        (runBatches env now cap seeded [] (chunk3 strategies)).1)).map
          CandidateProfile.username).Nodup :=
      ((List.perm_insertionSort qualityGE _).map CandidateProfile.username).nodup_iff.mpr hdd
    rw [hdef, List.map_take]
    exact List.Nodup.sublist (List.take_sublist _ _) hsortnd
  · intro c hc
    obtain ⟨u, prof, hg, hpu, hco, _⟩ :=
      executeParallelSearches_mem env now cap strategies seeded c hc
    rw [hco, buildCandidateProfile_username, henv u prof hg]
    exact hpu
  · rw [hdef]
    exact List.Pairwise.sublist (List.take_sublist _ _)
      (List.sorted_insertionSort qualityGE _)
  · rw [hdef]
    exact List.length_take_le _ _

/-- Witness for C7, at a concrete environment whose single strategy accepts
one fresh candidate while the seeded username reappears in the search. -/
theorem c7_output_invariants_witness :
    ((executeParallelSearches envW 1000 10 [stratW] ["seeded1"]).map
        CandidateProfile.username).Nodup
    ∧ wCandidate.username ∉ ["seeded1"]
    ∧ List.Sorted qualityGE (executeParallelSearches envW 1000 10 [stratW] ["seeded1"])
    ∧ (executeParallelSearches envW 1000 10 [stratW] ["seeded1"]).length ≤ 10 := by
  have henv : ∀ u p, envW.getUser u = some p → p.login = u := by
    intro u p h
    simp only [envW] at h
    split at h
    · rename_i hu
      rw [← Option.some.inj h]
      exact (eq_of_beq hu).symm
    · split at h
      · rename_i hu
        rw [← Option.some.inj h]
        exact (eq_of_beq hu).symm
      · exact absurd h (by simp)
  obtain ⟨h1, h2, h3, h4⟩ := c7_output_invariants envW 1000 10 [stratW] ["seeded1"] henv
  exact ⟨h1, h2 wCandidate (by decide), h3, h4⟩

/- ---------------------------------------------------------------- -/
/- Claim C8.                                                         -/
/- ---------------------------------------------------------------- -/

/-- C8.  In a batch of three strategies where A and C succeed with 2 and 3
candidates (no overlapping usernames) and B raises a network error, the
aggregated result contains exactly those 5 candidates and the executor
returns them normally; B's failure is captured inside the gather results as
a failed `SearchResult` and aborts nothing. -/
theorem c8_batch_failure_is_isolated :
    (executeParallelSearches envC8 1000 10 [stratA, stratB, stratC] []).map
        CandidateProfile.username = ["a1", "a2", "c1", "c2", "c3"]
    ∧ (executeParallelSearches envC8 1000 10 [stratA, stratB, stratC] []).length = 5
    ∧ (execBatch envC8 1000 [] [stratA, stratB, stratC]).1[1]?
        = some (.ok { strategy_name := "topic_b", candidates := []
                      success := false, error := some "network unreachable" }) := by
  decide
